import Mathlib

/-!
Shallow embedding of the attendance core of `src/server.js`:
the QR session manager, the attendance ledger (mark / decrement / history),
the daily penalty sweep, and the teacher token lifecycle (logout).

Persistent collections are modelled as Lean lists; `Model.findOne` becomes
`List.find?` (first match), `Model.create` appends, and an in-place `save`
of a fetched document becomes replacement of the first matching element.
Times are naturals (milliseconds); `new Date() > expiresAt` becomes
`expiresAt < now`.  The calendar-day string that the code computes as
`new Date().toISOString().split('T')[0]` is passed in as a `today : String`
parameter, the same value on the marking path and the sweep path.
-/

/-- The `status` field of the attendance schema: `enum: ['present', 'absent']`. -/
inductive Status where
  | present
  | absent
deriving DecidableEq, Repr

/-- One document of the `Attendance` collection:
`{regNumber, subject, date, status, scoreChange}`. -/
structure AttendanceRecord where
  regNumber : String
  subject : String
  date : String
  status : Status
  scoreChange : Int
deriving DecidableEq, Repr

/-- One document of the `QrSession` collection:
`{subject, qrId, createdAt, expiresAt}` (times in milliseconds). -/
structure QrSession where
  subject : String
  qrId : String
  createdAt : Nat
  expiresAt : Nat
deriving DecidableEq, Repr

/-- `QrSession.findOne({ qrId })`: first session whose `qrId` matches. -/
def findOneSession (sessions : List QrSession) (qrId : String) : Option QrSession :=
  sessions.find? (fun s => s.qrId == qrId)

/-- The filter `{ regNumber, subject, date }` used by `Attendance.findOne`. -/
def matchesKey (rec : AttendanceRecord) (regNumber subject date : String) : Bool :=
  rec.regNumber == regNumber && rec.subject == subject && rec.date == date

/-- `Attendance.findOne({ regNumber, subject, date })`: first record for the key. -/
def findOneAttendance (ledger : List AttendanceRecord)
    (regNumber subject date : String) : Option AttendanceRecord :=
  ledger.find? (fun rec => matchesKey rec regNumber subject date)

/-- All records a ledger holds for one `(regNumber, subject, date)` key. -/
def recordsFor (ledger : List AttendanceRecord)
    (regNumber subject date : String) : List AttendanceRecord :=
  ledger.filter (fun rec => matchesKey rec regNumber subject date)

/-- The mutation `record.status = 'present'; record.scoreChange = +1`. -/
def upgradeToPresent (rec : AttendanceRecord) : AttendanceRecord :=
  { rec with status := .present, scoreChange := 1 }

/-- Saving a mutated fetched document: replace the first record matching the
key by its upgraded version, leaving the rest of the collection intact. -/
def saveUpgraded (ledger : List AttendanceRecord)
    (regNumber subject date : String) : List AttendanceRecord :=
  match ledger with
  | [] => []
  | rec :: rest =>
    if matchesKey rec regNumber subject date then upgradeToPresent rec :: rest
    else rec :: saveUpgraded rest regNumber subject date

/-- Outcome of QR validation inside `POST /attendance/mark`. -/
inductive QrValidation where
  | invalidQr
  | expiredQr
  | valid (session : QrSession)
deriving DecidableEq, Repr

/-- The validation steps of `POST /attendance/mark` lines 210-213:
`findOne({qrId})`, reject if absent (`Invalid QR`), reject if
`new Date() > session.expiresAt` (`QR expired`). -/
def validateQr (sessions : List QrSession) (qrId : String) (now : Nat) : QrValidation :=
  match findOneSession sessions qrId with
  | none => .invalidQr
  | some session => if session.expiresAt < now then .expiredQr else .valid session

/-- Outcome of `POST /attendance/mark`. -/
inductive MarkOutcome where
  | missingData
  | invalidQr
  | expiredQr
  | alreadyMarked
  | marked (record : AttendanceRecord)
deriving DecidableEq, Repr

/-- `POST /attendance/mark`: reject falsy fields, validate the QR session,
look up the record for `(regNumber, subject, today)`; if it is already
`present` return already-marked, otherwise create or upgrade the record to
`present`/+1 and save it.  Returns the outcome and the resulting ledger. -/
def markPresent (sessions : List QrSession) (ledger : List AttendanceRecord)
    (now : Nat) (today : String) (regNumber subject qrId : String) :
    MarkOutcome × List AttendanceRecord :=
  if regNumber == "" || subject == "" || qrId == "" then (.missingData, ledger)
  else
    match validateQr sessions qrId now with
    | .invalidQr => (.invalidQr, ledger)
    | .expiredQr => (.expiredQr, ledger)
    | .valid _ =>
      match findOneAttendance ledger regNumber subject today with
      | some record =>
        if record.status = .present then (.alreadyMarked, ledger)
        else (.marked (upgradeToPresent record), saveUpgraded ledger regNumber subject today)
      | none =>
        (.marked ⟨regNumber, subject, today, .present, 1⟩,
         ledger ++ [⟨regNumber, subject, today, .present, 1⟩])

/-- Outcome of `POST /attendance/decrement`. -/
inductive AbsenceOutcome where
  | absentRecorded
  | alreadyAbsent
  | noPenalty
deriving DecidableEq, Repr

/-- `POST /attendance/decrement` (also the body of the sweep loop): if no
record exists for `(regNumber, subject, today)` create an `absent`, -3, record;
if the record is `absent` do nothing (already absent); if it is `present`
do nothing (no penalty). -/
def recordAbsenceIfMissing (ledger : List AttendanceRecord)
    (regNumber subject today : String) : AbsenceOutcome × List AttendanceRecord :=
  match findOneAttendance ledger regNumber subject today with
  | none => (.absentRecorded, ledger ++ [⟨regNumber, subject, today, .absent, -3⟩])
  | some record =>
    if record.status = .absent then (.alreadyAbsent, ledger)
    else (.noPenalty, ledger)

/-- Calling the decrement path `n` times in a row for the same key. -/
def iterateAbsence (ledger : List AttendanceRecord)
    (regNumber subject today : String) : Nat → List AttendanceRecord
  | 0 => ledger
  | n + 1 =>
    iterateAbsence (recordAbsenceIfMissing ledger regNumber subject today).2
      regNumber subject today n

/-- The Cartesian product `students × subjects` iterated by the cron job
(students outer, subjects inner), keyed by `regNumber` and subject `name`. -/
def sweepPairs (students subjects : List String) : List (String × String) :=
  students.foldr (fun st acc => subjects.map (fun su => (st, su)) ++ acc) []

/-- The body of the daily cron: for each pair in order, create an
`absent`, -3, record for today when none exists. -/
def sweepOver (ledger : List AttendanceRecord) (today : String) :
    List (String × String) → List AttendanceRecord
  | [] => ledger
  | (st, su) :: rest =>
    sweepOver (recordAbsenceIfMissing ledger st su today).2 today rest

/-- The daily cron job `cron.schedule('59 23 * * *', ...)`: sweep the full
Cartesian product of all students and all subjects for today. -/
def dailySweep (students subjects : List String)
    (ledger : List AttendanceRecord) (today : String) : List AttendanceRecord :=
  sweepOver ledger today (sweepPairs students subjects)

/-- The cron loop when the per-pair `Attendance.create` may fail (the awaited
promise rejects).  The loop body in `src/server.js` has no try/catch, so a
rejection propagates out of the `for` loops and the remaining pairs are never
processed.  `failing st su = true` means the create for that pair rejects;
the returned flag is `true` when the sweep was aborted by such a rejection. -/
def sweepWithFailingWrites (ledger : List AttendanceRecord) (today : String)
    (failing : String → String → Bool) :
    List (String × String) → List AttendanceRecord × Bool
  | [] => (ledger, false)
  | (st, su) :: rest =>
    match findOneAttendance ledger st su today with
    | some _ => sweepWithFailingWrites ledger today failing rest
    | none =>
      if failing st su then (ledger, true)
      else
        sweepWithFailingWrites (ledger ++ [⟨st, su, today, .absent, -3⟩])
          today failing rest

/-- The sort key of `GET /attendance/:regNumber`: `.sort({ date: -1 })`,
date descending. -/
def dateDescOrder (a b : AttendanceRecord) : Prop :=
  b.date ≤ a.date

instance : DecidableRel dateDescOrder := fun a b =>
  inferInstanceAs (Decidable (b.date ≤ a.date))

instance : IsTotal AttendanceRecord dateDescOrder :=
  ⟨fun a b => le_total b.date a.date⟩

instance : IsTrans AttendanceRecord dateDescOrder :=
  ⟨fun _ _ _ hab hbc => le_trans hbc hab⟩

/-- `GET /attendance/:regNumber`: `Attendance.find({ regNumber }).sort({ date: -1 })`
— every record of the student, as a fully built list sorted by date descending. -/
def history (ledger : List AttendanceRecord) (regNumber : String) :
    List AttendanceRecord :=
  List.insertionSort dateDescOrder (ledger.filter (fun rec => rec.regNumber == regNumber))

/-- `POST /logout`: `req.teacher.tokens = req.teacher.tokens.filter(t => t !== req.token)`. -/
def logout (tokens : List String) (token : String) : List String :=
  tokens.filter (fun t => t != token)

/-- The token check of the `authenticate` middleware once the JWT signature is
verified: `teacher.tokens.includes(token)`. -/
def tokenAccepted (tokens : List String) (token : String) : Bool :=
  tokens.contains token

/-! ### Helper lemmas about the ledger primitives -/

theorem recordsFor_append (l₁ l₂ : List AttendanceRecord) (r s d : String) :
    recordsFor (l₁ ++ l₂) r s d = recordsFor l₁ r s d ++ recordsFor l₂ r s d := by
  simp [recordsFor, List.filter_append]

theorem findOneAttendance_eq_head (l : List AttendanceRecord) (r s d : String) :
    findOneAttendance l r s d = (recordsFor l r s d).head? := by
  induction l with
  | nil => rfl
  | cons x xs ih =>
    by_cases h : matchesKey x r s d
    · simp [findOneAttendance, recordsFor, List.find?_cons_of_pos, List.filter_cons_of_pos, h]
    · simp only [findOneAttendance, recordsFor] at ih ⊢
      rw [List.find?_cons_of_neg (p := fun rec => matchesKey rec r s d) xs h,
        List.filter_cons_of_neg (p := fun rec => matchesKey rec r s d) h]
      exact ih

theorem findOneAttendance_eq_none_iff (l : List AttendanceRecord) (r s d : String) :
    findOneAttendance l r s d = none ↔ recordsFor l r s d = [] := by
  rw [findOneAttendance_eq_head]
  exact List.head?_eq_none_iff

theorem matchesKey_upgradeToPresent (rec : AttendanceRecord) (r s d : String) :
    matchesKey (upgradeToPresent rec) r s d = matchesKey rec r s d := rfl

theorem saveUpgraded_length (l : List AttendanceRecord) (r s d : String) :
    (saveUpgraded l r s d).length = l.length := by
  induction l with
  | nil => rfl
  | cons x xs ih =>
    by_cases h : matchesKey x r s d <;> simp [saveUpgraded, h, ih]

theorem recordsFor_saveUpgraded (l : List AttendanceRecord) (r s d : String)
    (rec : AttendanceRecord) (hf : findOneAttendance l r s d = some rec) :
    recordsFor (saveUpgraded l r s d) r s d
      = upgradeToPresent rec :: (recordsFor l r s d).tail := by
  induction l with
  | nil => simp [findOneAttendance] at hf
  | cons x xs ih =>
    by_cases h : matchesKey x r s d
    · have hx : rec = x := by
        simpa [findOneAttendance, List.find?_cons_of_pos, h] using hf.symm
      subst hx
      simp [saveUpgraded, recordsFor, h, List.filter_cons_of_pos,
        matchesKey_upgradeToPresent]
    · have hf' : findOneAttendance xs r s d = some rec := by
        simpa [findOneAttendance, List.find?_cons_of_neg, h] using hf
      simpa [saveUpgraded, recordsFor, h, List.filter_cons_of_neg] using ih hf'

theorem recordAbsenceIfMissing_noop (l : List AttendanceRecord) (r s d : String)
    (rec : AttendanceRecord) (hf : findOneAttendance l r s d = some rec) :
    (recordAbsenceIfMissing l r s d).2 = l := by
  by_cases h : rec.status = .absent <;> simp [recordAbsenceIfMissing, hf, h]

theorem iterateAbsence_noop (l : List AttendanceRecord) (r s d : String)
    (rec : AttendanceRecord) (hf : findOneAttendance l r s d = some rec) :
    ∀ n, iterateAbsence l r s d n = l := by
  intro n
  induction n with
  | zero => rfl
  | succ n ih =>
    rw [iterateAbsence, recordAbsenceIfMissing_noop l r s d rec hf]
    exact ih

theorem recordAbsenceIfMissing_creates (l : List AttendanceRecord) (st su today : String)
    (hf : findOneAttendance l st su today = none) :
    (recordAbsenceIfMissing l st su today).2 = l ++ [⟨st, su, today, .absent, -3⟩] := by
  simp [recordAbsenceIfMissing, hf]

theorem recordsFor_append_absent_ne (ledger : List AttendanceRecord)
    (st su r s today : String) (hne : ¬ (st = r ∧ su = s)) :
    recordsFor (ledger ++ [⟨st, su, today, .absent, -3⟩]) r s today
      = recordsFor ledger r s today := by
  rw [recordsFor_append]
  by_cases h1 : st = r
  · by_cases h2 : su = s
    · exact absurd ⟨h1, h2⟩ hne
    · simp [recordsFor, matchesKey, h2]
  · simp [recordsFor, matchesKey, h1]

theorem recordsFor_append_absent_self (ledger : List AttendanceRecord)
    (r s today : String) (hemp : recordsFor ledger r s today = []) :
    recordsFor (ledger ++ [⟨r, s, today, .absent, -3⟩]) r s today
      = [⟨r, s, today, .absent, -3⟩] := by
  rw [recordsFor_append, hemp]
  simp [recordsFor, matchesKey]

theorem sweepOver_preserves (today r s : String) (pairs : List (String × String)) :
    ∀ ledger : List AttendanceRecord, recordsFor ledger r s today ≠ [] →
      recordsFor (sweepOver ledger today pairs) r s today = recordsFor ledger r s today := by
  induction pairs with
  | nil => intro ledger _; rfl
  | cons p rest ih =>
    obtain ⟨st, su⟩ := p
    intro ledger h
    rw [sweepOver]
    rcases hf : findOneAttendance ledger st su today with _ | rec
    · have hne : ¬ (st = r ∧ su = s) := by
        rintro ⟨rfl, rfl⟩
        exact h ((findOneAttendance_eq_none_iff ledger st su today).mp hf)
      rw [recordAbsenceIfMissing_creates ledger st su today hf]
      rw [ih _ (by rw [recordsFor_append_absent_ne ledger st su r s today hne]; exact h),
        recordsFor_append_absent_ne ledger st su r s today hne]
    · rw [recordAbsenceIfMissing_noop ledger st su today rec hf]
      exact ih ledger h

theorem sweepOver_creates (today r s : String) (pairs : List (String × String)) :
    ∀ ledger : List AttendanceRecord, recordsFor ledger r s today = [] →
      (r, s) ∈ pairs →
      recordsFor (sweepOver ledger today pairs) r s today
        = [⟨r, s, today, .absent, -3⟩] := by
  induction pairs with
  | nil => intro ledger _ hmem; cases hmem
  | cons p rest ih =>
    obtain ⟨st, su⟩ := p
    intro ledger hemp hmem
    rw [sweepOver]
    by_cases heq : st = r ∧ su = s
    · obtain ⟨rfl, rfl⟩ := heq
      have hf : findOneAttendance ledger st su today = none :=
        (findOneAttendance_eq_none_iff ledger st su today).mpr hemp
      rw [recordAbsenceIfMissing_creates ledger st su today hf]
      have hfull := recordsFor_append_absent_self ledger st su today hemp
      rw [sweepOver_preserves today st su rest _ (by rw [hfull]; simp), hfull]
    · have hmem' : (r, s) ∈ rest := by
        rcases List.mem_cons.mp hmem with h | h
        · exact absurd ⟨congrArg Prod.fst h.symm, congrArg Prod.snd h.symm⟩ heq
        · exact h
      rcases hf : findOneAttendance ledger st su today with _ | rec
      · rw [recordAbsenceIfMissing_creates ledger st su today hf]
        exact ih _ (by rw [recordsFor_append_absent_ne ledger st su r s today heq]; exact hemp)
          hmem'
      · rw [recordAbsenceIfMissing_noop ledger st su today rec hf]
        exact ih ledger hemp hmem'

theorem mem_sweepPairs (students subjects : List String) (r s : String)
    (hr : r ∈ students) (hs : s ∈ subjects) :
    (r, s) ∈ sweepPairs students subjects := by
  induction students with
  | nil => cases hr
  | cons x xs ih =>
    show (r, s) ∈ subjects.map (fun su => (x, su)) ++ sweepPairs xs subjects
    rcases List.mem_cons.mp hr with h | h
    · subst h
      exact List.mem_append.mpr (Or.inl (List.mem_map.mpr ⟨s, hs, rfl⟩))
    · exact List.mem_append.mpr (Or.inr (ih h))

/-! ### Claim theorems -/

/-- C4: QR validation fails with `InvalidQr` exactly when no stored session
carries the presented id; given the session, it fails with `ExpiredQr` exactly
when `now > expiresAt`, hence it fails at `expiresAt + 1`, and succeeds at
`expiresAt - 1` and at exactly `expiresAt`. -/
theorem c4_qr_validation_window (sessions : List QrSession) (qrId : String) (now : Nat) :
    (validateQr sessions qrId now = .invalidQr ↔ ∀ s ∈ sessions, s.qrId ≠ qrId)
    ∧ ∀ s, findOneSession sessions qrId = some s →
        (validateQr sessions qrId now = .expiredQr ↔ s.expiresAt < now)
        ∧ validateQr sessions qrId (s.expiresAt + 1) = .expiredQr
        ∧ validateQr sessions qrId (s.expiresAt - 1) = .valid s
        ∧ validateQr sessions qrId s.expiresAt = .valid s := by
  constructor
  · constructor
    · intro h s hs hq
      rcases hf : findOneSession sessions qrId with _ | s'
      · have := List.find?_eq_none.mp hf s hs
        simp [hq] at this
      · by_cases he : s'.expiresAt < now <;> simp [validateQr, hf, he] at h
    · intro h
      have hf : findOneSession sessions qrId = none := by
        apply List.find?_eq_none.mpr
        intro s hs
        simpa using h s hs
      simp [validateQr, hf]
  · intro s hf
    refine ⟨?_, ?_, ?_, ?_⟩
    · by_cases he : s.expiresAt < now <;> simp [validateQr, hf, he]
    · simp [validateQr, hf]
    · simp [validateQr, hf, Nat.not_lt.mpr (Nat.sub_le _ _)]
    · simp [validateQr, hf]

theorem c4_qr_validation_window_witness :
    validateQr [⟨"Math", "qr1", 0, 1000⟩] "qr1" 1001 = .expiredQr
    ∧ validateQr [⟨"Math", "qr1", 0, 1000⟩] "qr1" 999 = .valid ⟨"Math", "qr1", 0, 1000⟩
    ∧ validateQr [⟨"Math", "qr1", 0, 1000⟩] "qr1" 1000 = .valid ⟨"Math", "qr1", 0, 1000⟩ := by
  have h := (c4_qr_validation_window [⟨"Math", "qr1", 0, 1000⟩] "qr1" 1001).2
    ⟨"Math", "qr1", 0, 1000⟩ (by decide)
  exact ⟨h.1.mpr (by decide), h.2.2.1, h.2.2.2⟩

/-- C5: a mark request whose QR id is unknown fails with `InvalidQr`, and one
whose session is expired fails with `ExpiredQr`; in both cases the attendance
ledger after the call is exactly the ledger before it (no record written). -/
theorem c5_mark_atomic_on_qr_failure (sessions : List QrSession)
    (ledger : List AttendanceRecord) (now : Nat) (today regNumber subject qrId : String)
    (hr : regNumber ≠ "") (hs : subject ≠ "") (hq : qrId ≠ "") :
    (findOneSession sessions qrId = none →
      markPresent sessions ledger now today regNumber subject qrId = (.invalidQr, ledger))
    ∧ ∀ s, findOneSession sessions qrId = some s → s.expiresAt < now →
      markPresent sessions ledger now today regNumber subject qrId = (.expiredQr, ledger) := by
  constructor
  · intro hf
    simp [markPresent, validateQr, hf, hr, hs, hq]
  · intro s hf he
    simp [markPresent, validateQr, hf, he, hr, hs, hq]

theorem c5_mark_atomic_on_qr_failure_witness :
    markPresent [⟨"Math", "qr1", 0, 1000⟩] [] 500 "2026-10-12" "21CS01" "Math" "nope"
      = (.invalidQr, [])
    ∧ markPresent [⟨"Math", "qr1", 0, 1000⟩] [] 2000 "2026-10-12" "21CS01" "Math" "qr1"
      = (.expiredQr, []) := by
  refine ⟨(c5_mark_atomic_on_qr_failure _ _ _ _ _ _ _
      (by decide) (by decide) (by decide)).1 (by decide), ?_⟩
  exact (c5_mark_atomic_on_qr_failure _ _ _ _ _ _ _
      (by decide) (by decide) (by decide)).2 ⟨"Math", "qr1", 0, 1000⟩ (by decide) (by decide)

/-- C9: logout removes exactly the presented token from the teacher's token
list: the presented token no longer authenticates, while every other token
authenticates exactly as before. -/
theorem c9_logout_removes_only_presented (tokens : List String) (token : String) :
    tokenAccepted (logout tokens token) token = false
    ∧ ∀ t, t ≠ token → tokenAccepted (logout tokens token) t = tokenAccepted tokens t := by
  constructor
  · simp [tokenAccepted, logout, List.mem_filter]
  · intro t ht
    simp [tokenAccepted, logout, List.mem_filter, ht]

/-- C1: with a valid, unexpired QR session and no prior record for
`(regNumber, subject, today)`, the first mark writes exactly one
`present`/+1 record for the key, and a second identical mark returns
`AlreadyMarked` and leaves the ledger exactly as the first call left it. -/
theorem c1_mark_twice_single_present (sessions : List QrSession)
    (ledger : List AttendanceRecord) (now : Nat) (today regNumber subject qrId : String)
    (hr : regNumber ≠ "") (hs : subject ≠ "") (hq : qrId ≠ "")
    (session : QrSession) (hf : findOneSession sessions qrId = some session)
    (hlive : ¬ session.expiresAt < now)
    (hnone : findOneAttendance ledger regNumber subject today = none) :
    markPresent sessions ledger now today regNumber subject qrId
      = (.marked ⟨regNumber, subject, today, .present, 1⟩,
         ledger ++ [⟨regNumber, subject, today, .present, 1⟩])
    ∧ recordsFor (ledger ++ [⟨regNumber, subject, today, .present, 1⟩])
        regNumber subject today = [⟨regNumber, subject, today, .present, 1⟩]
    ∧ markPresent sessions (ledger ++ [⟨regNumber, subject, today, .present, 1⟩])
        now today regNumber subject qrId
      = (.alreadyMarked, ledger ++ [⟨regNumber, subject, today, .present, 1⟩]) := by
  have hkey : matchesKey ⟨regNumber, subject, today, .present, 1⟩ regNumber subject today = true := by
    simp [matchesKey]
  have hemp : recordsFor ledger regNumber subject today = [] :=
    (findOneAttendance_eq_none_iff ledger regNumber subject today).mp hnone
  have hrecs : recordsFor (ledger ++ [⟨regNumber, subject, today, .present, 1⟩])
      regNumber subject today = [⟨regNumber, subject, today, .present, 1⟩] := by
    rw [recordsFor_append, hemp]
    simp [recordsFor, List.filter_cons_of_pos, hkey]
  have hfind2 : findOneAttendance (ledger ++ [⟨regNumber, subject, today, .present, 1⟩])
      regNumber subject today = some ⟨regNumber, subject, today, .present, 1⟩ := by
    rw [findOneAttendance_eq_head, hrecs]
    rfl
  refine ⟨?_, hrecs, ?_⟩
  · simp [markPresent, validateQr, hf, hlive, hnone, hr, hs, hq]
  · simp [markPresent, validateQr, hf, hlive, hfind2, hr, hs, hq]

theorem c1_mark_twice_single_present_witness :
    markPresent [⟨"Math", "qr1", 0, 1000⟩] [] 500 "2026-10-12" "21CS01" "Math" "qr1"
      = (.marked ⟨"21CS01", "Math", "2026-10-12", .present, 1⟩,
         [⟨"21CS01", "Math", "2026-10-12", .present, 1⟩])
    ∧ recordsFor [⟨"21CS01", "Math", "2026-10-12", .present, 1⟩] "21CS01" "Math" "2026-10-12"
      = [⟨"21CS01", "Math", "2026-10-12", .present, 1⟩]
    ∧ markPresent [⟨"Math", "qr1", 0, 1000⟩] [⟨"21CS01", "Math", "2026-10-12", .present, 1⟩]
        500 "2026-10-12" "21CS01" "Math" "qr1"
      = (.alreadyMarked, [⟨"21CS01", "Math", "2026-10-12", .present, 1⟩]) :=
  c1_mark_twice_single_present [⟨"Math", "qr1", 0, 1000⟩] [] 500 "2026-10-12"
    "21CS01" "Math" "qr1" (by decide) (by decide) (by decide)
    ⟨"Math", "qr1", 0, 1000⟩ (by decide) (by decide) (by decide)

/-- C2: when the key holds a single existing record and it is `absent`
(as written by the sweep), a successful mark upgrades that same record in
place to `present`/+1: the key afterwards holds exactly one record, the
upgraded one, and the ledger's length is unchanged (no second row). -/
theorem c2_mark_upgrades_absence (sessions : List QrSession)
    (ledger : List AttendanceRecord) (now : Nat) (today regNumber subject qrId : String)
    (hr : regNumber ≠ "") (hs : subject ≠ "") (hq : qrId ≠ "")
    (session : QrSession) (hf : findOneSession sessions qrId = some session)
    (hlive : ¬ session.expiresAt < now)
    (rec : AttendanceRecord)
    (hone : recordsFor ledger regNumber subject today = [rec])
    (habsent : rec.status = .absent) :
    markPresent sessions ledger now today regNumber subject qrId
      = (.marked (upgradeToPresent rec), saveUpgraded ledger regNumber subject today)
    ∧ recordsFor (saveUpgraded ledger regNumber subject today) regNumber subject today
      = [upgradeToPresent rec]
    ∧ (upgradeToPresent rec).status = .present
    ∧ (upgradeToPresent rec).scoreChange = 1
    ∧ (saveUpgraded ledger regNumber subject today).length = ledger.length := by
  have hfind : findOneAttendance ledger regNumber subject today = some rec := by
    rw [findOneAttendance_eq_head, hone]
    rfl
  have hnp : ¬ rec.status = .present := by
    rw [habsent]
    exact fun h => Status.noConfusion h
  refine ⟨?_, ?_, rfl, rfl, saveUpgraded_length ledger regNumber subject today⟩
  · simp [markPresent, validateQr, hf, hlive, hfind, hnp, hr, hs, hq]
  · rw [recordsFor_saveUpgraded ledger regNumber subject today rec hfind, hone]
    rfl

theorem c2_mark_upgrades_absence_witness :
    markPresent [⟨"Math", "qr1", 0, 1000⟩] [⟨"21CS01", "Math", "2026-10-12", .absent, -3⟩]
        500 "2026-10-12" "21CS01" "Math" "qr1"
      = (.marked ⟨"21CS01", "Math", "2026-10-12", .present, 1⟩,
         [⟨"21CS01", "Math", "2026-10-12", .present, 1⟩])
    ∧ recordsFor [⟨"21CS01", "Math", "2026-10-12", .present, 1⟩] "21CS01" "Math" "2026-10-12"
      = [⟨"21CS01", "Math", "2026-10-12", .present, 1⟩]
    ∧ (saveUpgraded [⟨"21CS01", "Math", "2026-10-12", .absent, -3⟩]
        "21CS01" "Math" "2026-10-12").length
      = ([⟨"21CS01", "Math", "2026-10-12", .absent, -3⟩] : List AttendanceRecord).length := by
  have h := c2_mark_upgrades_absence [⟨"Math", "qr1", 0, 1000⟩]
    [⟨"21CS01", "Math", "2026-10-12", .absent, -3⟩] 500 "2026-10-12"
    "21CS01" "Math" "qr1" (by decide) (by decide) (by decide)
    ⟨"Math", "qr1", 0, 1000⟩ (by decide) (by decide)
    ⟨"21CS01", "Math", "2026-10-12", .absent, -3⟩ (by decide) rfl
  exact ⟨h.1, h.2.1, h.2.2.2.2⟩

/-- C3: the decrement path is idempotent and presence-protecting: from a key
with no record, any N ≥ 1 calls leave exactly one `absent`, -3, record; on a
key holding an `absent` record it answers already-absent and changes
nothing; on a key holding a `present` record it answers no-penalty and
changes nothing. -/
theorem c3_absence_idempotent (ledger : List AttendanceRecord) (r s d : String) :
    (findOneAttendance ledger r s d = none → ∀ n, 1 ≤ n →
      iterateAbsence ledger r s d n = ledger ++ [⟨r, s, d, .absent, -3⟩]
      ∧ recordsFor (iterateAbsence ledger r s d n) r s d = [⟨r, s, d, .absent, -3⟩])
    ∧ (∀ rec, findOneAttendance ledger r s d = some rec → rec.status = .absent →
      recordAbsenceIfMissing ledger r s d = (.alreadyAbsent, ledger))
    ∧ (∀ rec, findOneAttendance ledger r s d = some rec → rec.status = .present →
      recordAbsenceIfMissing ledger r s d = (.noPenalty, ledger)) := by
  refine ⟨?_, ?_, ?_⟩
  · intro hnone n hn
    have hkey : matchesKey ⟨r, s, d, .absent, -3⟩ r s d = true := by
      simp [matchesKey]
    have hemp : recordsFor ledger r s d = [] :=
      (findOneAttendance_eq_none_iff ledger r s d).mp hnone
    have hrecs : recordsFor (ledger ++ [⟨r, s, d, .absent, -3⟩]) r s d
        = [⟨r, s, d, .absent, -3⟩] := by
      rw [recordsFor_append, hemp]
      simp [recordsFor, List.filter_cons_of_pos, hkey]
    have hfind1 : findOneAttendance (ledger ++ [⟨r, s, d, .absent, -3⟩]) r s d
        = some ⟨r, s, d, .absent, -3⟩ := by
      rw [findOneAttendance_eq_head, hrecs]
      rfl
    obtain ⟨m, rfl⟩ : ∃ m, n = m + 1 := ⟨n - 1, by omega⟩
    have hstep : iterateAbsence ledger r s d (m + 1)
        = iterateAbsence (ledger ++ [⟨r, s, d, .absent, -3⟩]) r s d m := by
      rw [iterateAbsence]
      simp [recordAbsenceIfMissing, hnone]
    rw [hstep, iterateAbsence_noop _ r s d _ hfind1 m]
    exact ⟨rfl, hrecs⟩
  · intro rec hf habs
    simp [recordAbsenceIfMissing, hf, habs]
  · intro rec hf hpres
    have : ¬ rec.status = .absent := by
      rw [hpres]
      exact fun h => Status.noConfusion h
    simp [recordAbsenceIfMissing, hf, this]

theorem c3_absence_idempotent_witness :
    iterateAbsence [] "21CS01" "Math" "2026-10-12" 3
      = [⟨"21CS01", "Math", "2026-10-12", .absent, -3⟩]
    ∧ recordAbsenceIfMissing [⟨"21CS01", "Math", "2026-10-12", .present, 1⟩]
        "21CS01" "Math" "2026-10-12"
      = (.noPenalty, [⟨"21CS01", "Math", "2026-10-12", .present, 1⟩]) := by
  have h := c3_absence_idempotent [] "21CS01" "Math" "2026-10-12"
  have h2 := c3_absence_idempotent [⟨"21CS01", "Math", "2026-10-12", .present, 1⟩]
    "21CS01" "Math" "2026-10-12"
  exact ⟨(h.1 (by decide) 3 (by decide)).1,
    h2.2.2 ⟨"21CS01", "Math", "2026-10-12", .present, 1⟩ (by decide) rfl⟩

theorem c9_logout_removes_only_presented_witness :
    tokenAccepted (logout ["tokA", "tokB"] "tokA") "tokA" = false
    ∧ tokenAccepted (logout ["tokA", "tokB"] "tokA") "tokB" = tokenAccepted ["tokA", "tokB"] "tokB" := by
  have h := c9_logout_removes_only_presented ["tokA", "tokB"] "tokA"
  exact ⟨h.1, h.2 "tokB" (by decide)⟩

/-- C6: for every student named in the roster and every known subject, the
daily sweep leaves the key's records unchanged when a record for today
already exists, and otherwise leaves the key with exactly one `absent`, -3,
record for today. -/
theorem c6_daily_sweep_fills_absences (students subjects : List String)
    (ledger : List AttendanceRecord) (today r s : String)
    (hr : r ∈ students) (hs : s ∈ subjects) :
    (recordsFor ledger r s today ≠ [] →
      recordsFor (dailySweep students subjects ledger today) r s today
        = recordsFor ledger r s today)
    ∧ (recordsFor ledger r s today = [] →
      recordsFor (dailySweep students subjects ledger today) r s today
        = [⟨r, s, today, .absent, -3⟩]) := by
  constructor
  · intro h
    exact sweepOver_preserves today r s (sweepPairs students subjects) ledger h
  · intro h
    exact sweepOver_creates today r s (sweepPairs students subjects) ledger h
      (mem_sweepPairs students subjects r s hr hs)

theorem c6_daily_sweep_fills_absences_witness :
    recordsFor
      (dailySweep ["s1", "s2"] ["Math"]
        [⟨"s1", "Math", "2026-10-12", .present, 1⟩] "2026-10-12")
      "s1" "Math" "2026-10-12"
      = recordsFor [⟨"s1", "Math", "2026-10-12", .present, 1⟩] "s1" "Math" "2026-10-12"
    ∧ recordsFor
      (dailySweep ["s1", "s2"] ["Math"]
        [⟨"s1", "Math", "2026-10-12", .present, 1⟩] "2026-10-12")
      "s2" "Math" "2026-10-12"
      = [⟨"s2", "Math", "2026-10-12", .absent, -3⟩] := by
  refine ⟨(c6_daily_sweep_fills_absences ["s1", "s2"] ["Math"]
      [⟨"s1", "Math", "2026-10-12", .present, 1⟩] "2026-10-12" "s1" "Math"
      (by decide) (by decide)).1 (by decide), ?_⟩
  exact (c6_daily_sweep_fills_absences ["s1", "s2"] ["Math"]
      [⟨"s1", "Math", "2026-10-12", .present, 1⟩] "2026-10-12" "s2" "Math"
      (by decide) (by decide)).2 (by decide)

/-- C7: the cron loop in the source has no per-pair try/catch, so a failing
write aborts the remaining iteration: with students s1 and s2, subject Math
and an empty ledger, a rejected create for (s1, Math) ends the sweep with the
abort flag set and (s2, Math) never receives its absence record — contrary to
the claim that every subsequent pair is still processed. -/
theorem c7_sweep_aborts_on_failing_write :
    sweepWithFailingWrites [] "2026-10-12" (fun st _ => st == "s1")
      [("s1", "Math"), ("s2", "Math")] = ([], true)
    ∧ recordsFor
      (sweepWithFailingWrites [] "2026-10-12" (fun st _ => st == "s1")
        [("s1", "Math"), ("s2", "Math")]).1 "s2" "Math" "2026-10-12" = [] := by
  decide

/-- C8: history for a registration number is a permutation of all the
student's ledger records — a record is in it exactly when it belongs to the
student, whatever its subject or date — and it is sorted by date descending. -/
theorem c8_history_sorted_complete (ledger : List AttendanceRecord) (regNumber : String) :
    List.Perm (history ledger regNumber)
      (ledger.filter (fun rec => rec.regNumber == regNumber))
    ∧ (∀ rec, rec ∈ history ledger regNumber ↔ rec ∈ ledger ∧ rec.regNumber = regNumber)
    ∧ List.Sorted dateDescOrder (history ledger regNumber) := by
  refine ⟨List.perm_insertionSort _ _, ?_, List.sorted_insertionSort _ _⟩
  intro rec
  unfold history
  rw [(List.perm_insertionSort dateDescOrder _).mem_iff, List.mem_filter]
  simp

/-- C10: the mark path never compares the request's subject with the subject
the QR session was created for: a valid, unexpired session admits a mark
naming any subject whatsoever, and the `present`/+1 record is keyed on the
request's subject, independent of the session's. -/
theorem c10_mark_ignores_session_subject (sessions : List QrSession)
    (ledger : List AttendanceRecord) (now : Nat) (today regNumber subjectB qrId : String)
    (hr : regNumber ≠ "") (hs : subjectB ≠ "") (hq : qrId ≠ "")
    (session : QrSession) (hf : findOneSession sessions qrId = some session)
    (hlive : ¬ session.expiresAt < now)
    (hnone : findOneAttendance ledger regNumber subjectB today = none) :
    markPresent sessions ledger now today regNumber subjectB qrId
      = (.marked ⟨regNumber, subjectB, today, .present, 1⟩,
         ledger ++ [⟨regNumber, subjectB, today, .present, 1⟩]) := by
  simp [markPresent, validateQr, hf, hlive, hnone, hr, hs, hq]

theorem c10_mark_ignores_session_subject_witness :
    markPresent [⟨"Math", "qr1", 0, 1000⟩] [] 500 "2026-10-12" "21CS01" "Physics" "qr1"
      = (.marked ⟨"21CS01", "Physics", "2026-10-12", .present, 1⟩,
         [⟨"21CS01", "Physics", "2026-10-12", .present, 1⟩]) :=
  c10_mark_ignores_session_subject [⟨"Math", "qr1", 0, 1000⟩] [] 500 "2026-10-12"
    "21CS01" "Physics" "qr1" (by decide) (by decide) (by decide)
    ⟨"Math", "qr1", 0, 1000⟩ (by decide) (by decide) (by decide)
